import Mathlib

/-!
# Verification of `oneminutelogs-next` client behaviour

Shallow embedding of the oneminutelogs SDK client code:

* `OMLTransport` (src/dist/utils/transport.js): batching transport with a
  single periodic flush timer, an in-progress flush guard and graceful
  shutdown handlers.
* `getLogs` hook (src/dist/utils/getLogs.js): cached, de-duplicated fetch
  of historical logs, with `refetch`.
* `getStream` hook (src/unnamed, utils/getStream): SSE message
  normalisation (`toLogEntry`) and a rolling window capped at 5000.

JavaScript asynchrony is modelled by splitting each `async` function at its
`await` points into explicit phases (`flushBegin`/`flushFinish`,
`fetchOnceStart`/`fetchOnceResolve`); the synchronous prefixes run
atomically, exactly as the single-threaded event loop runs them.  Ghost
counters (`timersArmed`, `flushRuns`, `netRequests`) instrument the state
to count observable events; they affect nothing else.
-/

namespace OML

section Transport

variable {P : Type}

/-- A buffered log entry: the payload spread together with `ingested_at`
(from `this.buffer.push({...payload, ingested_at: Date.now()})`). -/
structure BufLog (P : Type) where
  payload : P
  ingested_at : Nat
  deriving DecidableEq, Repr

/-- The mutable fields of an `OMLTransport` instance, plus ghost event
counters.  `timer` models `this.timer !== null`. -/
structure Transport (P : Type) where
  buffer : List (BufLog P)
  timer : Bool
  shuttingDown : Bool
  isFlushing : Bool
  /-- ghost: number of times `setTimeout` was called to arm the flush timer -/
  timersArmed : Nat
  /-- ghost: number of flush executions that passed the in-progress guard -/
  flushRuns : Nat
  /-- ghost: number of network requests issued to `/send` -/
  netRequests : Nat
  deriving DecidableEq, Repr

/-- The freshly-constructed transport state (constructor field initialisers). -/
def Transport.init : Transport P :=
  { buffer := [], timer := false, shuttingDown := false, isFlushing := false,
    timersArmed := 0, flushRuns := 0, netRequests := 0 }

/-- `OMLTransport.send(payload)`: ignored during shutdown; otherwise pushes
the payload (with `ingested_at := now`) and arms the flush timer if none is
armed. -/
def send (s : Transport P) (payload : P) (now : Nat) : Transport P :=
  if s.shuttingDown then s
  else
    let s := { s with buffer := s.buffer ++ [⟨payload, now⟩] }
    if s.timer then s
    else { s with timer := true, timersArmed := s.timersArmed + 1 }

/-- A sequence of `send` calls (payload, `Date.now()` at the call). -/
def sendAll (s : Transport P) (ps : List (P × Nat)) : Transport P :=
  ps.foldl (fun s pn => send s pn.1 pn.2) s

/-- Synchronous prefix of `OMLTransport.flush()` up to the `await fetch`:
guard check, setting `isFlushing`, clearing the timer, draining the buffer,
and the empty-batch early return.  Returns the state at the `await` point
and `some batch` iff a network request was issued. -/
def flushBegin (s : Transport P) : Transport P × Option (List (BufLog P)) :=
  if s.isFlushing then (s, none)
  else
    let s1 := { s with isFlushing := true, timer := false,
                       flushRuns := s.flushRuns + 1 }
    let batch := s1.buffer
    let s2 := { s1 with buffer := [] }
    if batch.isEmpty then ({ s2 with isFlushing := false }, none)
    else ({ s2 with netRequests := s2.netRequests + 1 }, some batch)

/-- Continuation of `flush` after the `await fetch` resolves or rejects
(`ok` = delivery succeeded).  The `catch` block logs the error (returned
Bool) and the guard is cleared on both paths; the batch is never re-queued. -/
def flushFinish (s : Transport P) (ok : Bool) : Transport P × Bool :=
  ({ s with isFlushing := false }, !ok)

/-- A whole run of `flush` with no interleaved event-loop activity between
the drain and the response: state, batch sent (if any), error logged. -/
def flush (s : Transport P) (ok : Bool) : Transport P × Option (List (BufLog P)) × Bool :=
  match flushBegin s with
  | (s1, none) => (s1, none, false)
  | (s1, some b) =>
      let (s2, logged) := flushFinish s1 ok
      (s2, some b, logged)

/-- One invocation of the graceful-shutdown handler
(`setupGracefulShutdown`): the boolean guard makes signals after the first
no-ops; the first sets `shuttingDown`, awaits one flush, then exits.
Returns (state, batch sent by the final flush, whether `process.exit` ran). -/
def signalStep (s : Transport P) (ok : Bool) :
    Transport P × Option (List (BufLog P)) × Bool :=
  if s.shuttingDown then (s, none, false)
  else
    let s1 := { s with shuttingDown := true }
    let (s2, sent, _) := flush s1 ok
    (s2, sent, true)

/-- A sequence of shutdown-signal deliveries. -/
def signalAll (s : Transport P) (oks : List Bool) : Transport P :=
  oks.foldl (fun s ok => (signalStep s ok).1) s

end Transport

section GetLogs

variable {V : Type}

/-- Association-list lookup (JS `Map.get` / `Map.has`). -/
def alookup (l : List (String × V)) (k : String) : Option V :=
  match l with
  | [] => none
  | (k1, v) :: rest => if k1 = k then some v else alookup rest k

/-- Association-list removal (JS `Map.delete`). -/
def aerase (l : List (String × V)) (k : String) : List (String × V) :=
  match l with
  | [] => []
  | (k1, v) :: rest => if k1 = k then aerase rest k else (k1, v) :: aerase rest k

/-- Association-list update (JS `Map.set`). -/
def aset (l : List (String × V)) (k : String) (v : V) : List (String × V) :=
  (k, v) :: aerase l k

/-- Module-level state of getLogs.js: the `cache` and `inflight` maps keyed
by the filters-derived query string.  In-flight promises are identified by
ghost ids drawn from `nextP`; `netCalls` counts issued `fetch` calls. -/
structure FetchState (V : Type) where
  cache : List (String × V)
  inflight : List (String × Nat)
  nextP : Nat
  netCalls : Nat
  deriving DecidableEq, Repr

/-- Outcome of the synchronous prefix of `fetchOnce(k)`: a cached value is
returned at once, otherwise the caller awaits a promise (pre-existing or
freshly created). -/
inductive StartRes (V : Type) where
  | cached (v : V)
  | awaitP (pid : Nat)
  deriving DecidableEq, Repr

/-- Synchronous prefix of `fetchOnce(k)` (getLogs.js lines 82–99): serve
the cache if hit; else reuse the in-flight promise for `k`; else issue a
network call and record the new promise in `inflight`. -/
def fetchOnceStart (s : FetchState V) (k : String) : FetchState V × StartRes V :=
  match alookup s.cache k with
  | some v => (s, .cached v)
  | none =>
    match alookup s.inflight k with
    | some p => (s, .awaitP p)
    | none =>
        ({ s with inflight := aset s.inflight k s.nextP,
                  nextP := s.nextP + 1,
                  netCalls := s.netCalls + 1 }, .awaitP s.nextP)

/-- Continuation of `fetchOnce(k)` once the awaited promise settles
(lines 100–107): on success the result is cached and returned; on failure
the error propagates and nothing is cached; `finally` deletes the
in-flight entry on both paths. -/
def fetchOnceResolve (s : FetchState V) (k : String) (res : Except String V) :
    FetchState V × Except String V :=
  match res with
  | .ok v => ({ s with cache := aset s.cache k v,
                       inflight := aerase s.inflight k }, .ok v)
  | .error e => ({ s with inflight := aerase s.inflight k }, .error e)

/-- `refetch()` (getLogs.js lines 131–135): delete the cache entry for the
current key, then run `fetchLogs`, whose network interaction is
`fetchOnce(key)` — modelled up to its `await` point. -/
def refetchStart (s : FetchState V) (k : String) : FetchState V × StartRes V :=
  fetchOnceStart { s with cache := aerase s.cache k } k

end GetLogs

section RowsShape

/-- A JSON value as produced by `res.json()`.  JavaScript `undefined` is
represented outside this type, as `Option JValue := none` (e.g. a missing
object field). -/
inductive JValue where
  | null
  | bool (b : Bool)
  | num (n : Int)
  | str (s : String)
  | arr (xs : List JValue)
  | obj (fs : List (String × JValue))

/-- JS nullish test on a possibly-undefined value. -/
def nullish : Option JValue → Bool
  | none => true
  | some .null => true
  | _ => false

/-- JS `a ?? b`. -/
def jqq (a b : Option JValue) : Option JValue :=
  if nullish a then b else a

/-- First-match field lookup on a JSON object (JS property access;
`none` = `undefined`). -/
def jfield : List (String × JValue) → String → Option JValue
  | [], _ => none
  | (k1, v) :: rest, k => if k1 = k then some v else jfield rest k

/-- `json?.logs`: `undefined` when `json` is nullish or has no `logs`
property (property access on a non-object primitive yields `undefined`
for `logs`). -/
def optChainLogs (j : JValue) : Option JValue :=
  match j with
  | .obj fs => jfield fs "logs"
  | _ => none

/-- `Array.isArray(json)`. -/
def isArr : JValue → Bool
  | .arr _ => true
  | _ => false

/-- `fetchLogs` (getLogs.js lines 113–115): the value stored by
`setData(rows ?? [])`, where
`rows = Array.isArray(json) ? json : json?.logs ?? json ?? []`. -/
def dataOf (json : JValue) : JValue :=
  let rows : Option JValue :=
    if isArr json then some json
    else jqq (jqq (optChainLogs json) (some json)) (some (.arr []))
  (jqq rows (some (.arr []))).getD (.arr [])

/-- Modelled from the spec words of the claim (for refinement): `b` itself
when `b` is an array; else `b.logs` when non-nullish; else `b` when
non-nullish; else the empty list. -/
def specRowsOf (b : JValue) : JValue :=
  if isArr b then b
  else if nullish (optChainLogs b) = false then (optChainLogs b).getD .null
  else if nullish (some b) = false then b
  else .arr []

end RowsShape

section Stream

/-- Two-digit zero padding (ISO-8601 field). -/
def pad2 (n : Nat) : String := if n < 10 then "0" ++ toString n else toString n

/-- Three-digit zero padding (ISO-8601 milliseconds). -/
def pad3 (n : Nat) : String :=
  if n < 10 then "00" ++ toString n
  else if n < 100 then "0" ++ toString n else toString n

/-- Four-digit zero padding (ISO-8601 year). -/
def pad4 (n : Nat) : String :=
  if n < 10 then "000" ++ toString n else if n < 100 then "00" ++ toString n
  else if n < 1000 then "0" ++ toString n else toString n

/-- `new Date(ms).toISOString()` for an epoch-milliseconds value, via the
standard civil-from-days calendar computation. -/
def isoOfEpochMs (ms : Int) : String :=
  let days : Int := ms.fdiv 86400000
  let msod : Nat := (ms - days * 86400000).toNat
  let ms3 := msod % 1000
  let secs := msod / 1000
  let ss := secs % 60
  let mm := (secs / 60) % 60
  let hh := secs / 3600
  let z : Int := days + 719468
  let era : Int := z.fdiv 146097
  let doe : Nat := (z - era * 146097).toNat
  let yoe : Nat := (doe - doe / 1460 + doe / 36524 - doe / 146096) / 365
  let doy : Nat := doe - (365 * yoe + yoe / 4 - yoe / 100)
  let mp : Nat := (5 * doy + 2) / 153
  let d : Nat := doy - (153 * mp + 2) / 5 + 1
  let m : Nat := if mp < 10 then mp + 3 else mp - 9
  let y : Int := (yoe : Int) + era * 400 + (if m ≤ 2 then 1 else 0)
  pad4 y.toNat ++ "-" ++ pad2 m ++ "-" ++ pad2 d ++ "T" ++
    pad2 hh ++ ":" ++ pad2 mm ++ ":" ++ pad2 ss ++ "." ++ pad3 ms3 ++ "Z"

/-- Days from 1970-01-01 for a civil date (inverse of the computation in
`isoOfEpochMs`). -/
def daysFromCivil (y : Int) (m d : Nat) : Int :=
  let y := if m ≤ 2 then y - 1 else y
  let era := y.fdiv 400
  let yoe : Nat := (y - era * 400).toNat
  let mp : Nat := if m > 2 then m - 3 else m + 9
  let doy := (153 * mp + 2) / 5 + d - 1
  let doe := yoe * 365 + yoe / 4 - yoe / 100 + doy
  era * 146097 + (doe : Int) - 719468

/-- Parse a `"YYYY-MM-DDTHH:MM:SSZ"` string to epoch milliseconds
(the shape produced from ClickHouse `"YYYY-MM-DD HH:mm:ss"` rows by
`replace(" ", "T") + "Z"`). -/
def parseDateZ (s : String) : Option Int :=
  if s.endsWith "Z" then
    match (s.dropRight 1).splitOn "T" with
    | [d, t] =>
      match d.splitOn "-", t.splitOn ":" with
      | [ys, mos, das], [hs, mins, ss] =>
        match ys.toNat?, mos.toNat?, das.toNat?, hs.toNat?, mins.toNat?, ss.toNat? with
        | some y, some mo, some da, some h, some mi, some sec =>
            if 1 ≤ mo ∧ mo ≤ 12 ∧ 1 ≤ da ∧ da ≤ 31 ∧ h < 24 ∧ mi < 60 ∧ sec < 60 then
              some (daysFromCivil (y : Int) mo da * 86400000 +
                ((h * 3600 + mi * 60 + sec : Nat) : Int) * 1000)
            else none
        | _, _, _, _, _, _ => none
      | _, _ => none
    | _ => none
  else none

/-- JS `String.prototype.replace` with a string pattern: replaces only the
first occurrence. -/
def replaceFirst (s pat repl : String) : String :=
  match s.splitOn pat with
  | [] => s
  | [x] => x
  | x :: rest => x ++ repl ++ String.intercalate pat rest

/-- A raw stream log (ClickHouse row shape) as consumed by `toLogEntry`:
optional string fields are `none` when absent, and `timestamp` is a number
or a string.  -/
structure RawLog where
  type : Option String
  message : String
  timestamp : Int ⊕ String
  appName : Option String
  keyId : Option String
  deriving DecidableEq, Repr

/-- JS `v || d` for a string-typed optional field (`undefined`/`null` and
the empty string are falsy). -/
def orDefault (v : Option String) (d : String) : String :=
  match v with
  | some s => if s = "" then d else s
  | none => d

/-- JS `String.prototype.toLowerCase()` (ASCII case mapping), written over
the character list so that it evaluates inside the kernel. -/
def toLowerStr (s : String) : String := ⟨s.data.map Char.toLower⟩

/-- JS truthiness of a string-typed optional field. -/
def truthyS (v : Option String) : Bool :=
  match v with
  | some s => !s.isEmpty
  | none => false

/-- The `tsIso` computation in `toLogEntry`: epoch seconds are scaled to
milliseconds, a string is reshaped (`replace(" ", "T") + "Z"`) and parsed.
An unparseable string is mapped to a sentinel (the JS code would throw
`RangeError` from `toISOString` there; no claim concerns that case). -/
def tsIsoOf : Int ⊕ String → String
  | .inl n => isoOfEpochMs (n * 1000)
  | .inr s =>
      match parseDateZ (replaceFirst s " " "T" ++ "Z") with
      | some ms => isoOfEpochMs ms
      | none => "Invalid Date"

/-- A normalized UI entry (`StreamLogNormalized`).  The random
`id: crypto.randomUUID()` field is omitted: it is fresh per entry and no
claim mentions it. -/
structure LogEntry where
  ts : String
  level : String
  source : String
  message : String
  payload : RawLog
  deriving DecidableEq, Repr

/-- `toLogEntry` (getStream, lines 110–141): lower-case the raw type,
map it into the canonical level set with default `"info"`, normalize the
timestamp to ISO, default the source. -/
def toLogEntry (l : RawLog) : LogEntry :=
  let rawType := toLowerStr (orDefault l.type "info")
  let level :=
    if rawType = "warning" then "warning"
    else if rawType = "success" then "success"
    else if rawType = "error" then "error"
    else if rawType = "debug" then "debug"
    else if rawType = "audit" then "audit"
    else if rawType = "metric" then "metric"
    else "info"
  { ts := tsIsoOf l.timestamp, level := level,
    source := orDefault l.appName "default", message := l.message, payload := l }

/-- A JSON object message, viewed both as a possible envelope (its `logs`
field, `some` iff present and an array) and as a possible single record
(`asRec`: its own type/keyId/… fields). -/
structure MsgObj where
  logs : Option (List RawLog)
  asRec : RawLog
  deriving DecidableEq, Repr

/-- A parsed SSE message payload. -/
inductive Payload where
  | null
  | arr (ls : List RawLog)
  | obj (o : MsgObj)
  deriving DecidableEq, Repr

/-- `payload?.type` (`undefined` for arrays and short-circuited for null). -/
def payloadType : Payload → Option String
  | .obj o => o.asRec.type
  | _ => none

/-- The `incoming` computation in `es.onmessage` (getStream, lines
177–187): an object with a `logs` array maps that array; a bare array maps
itself; any other object contributes itself as a single record only when
its `keyId` is truthy; anything else contributes nothing. -/
def incomingOf : Payload → List LogEntry
  | .obj o =>
      match o.logs with
      | some ls => ls.map toLogEntry
      | none => if truthyS o.asRec.keyId then [toLogEntry o.asRec] else []
  | .arr ls => ls.map toLogEntry
  | .null => []

/-- The `setData` updater in `es.onmessage` (getStream, lines 176–201):
compute `incoming` by shape dispatch, replace the window on an
`"initial"` envelope, otherwise append; both branches keep the last 5000
entries (`slice(next.length - 5000)` resp. `splice(0, next.length - 5000)`). -/
def onMessage (prev : List LogEntry) (payload : Payload) : List LogEntry :=
  let incoming : List LogEntry := incomingOf payload
  if payloadType payload = some "initial" then
    let next := incoming
    if next.length > 5000 then next.drop (next.length - 5000) else next
  else
    let next := prev ++ incoming
    if next.length > 5000 then next.drop (next.length - 5000) else next

/-- A sequence of SSE messages processed in arrival order. -/
def feed (prev : List LogEntry) (msgs : List Payload) : List LogEntry :=
  msgs.foldl onMessage prev

/-- An incremental single-record message for record `l`. -/
def singleMsg (l : RawLog) : Payload :=
  .obj { logs := none, asRec := l }

/-- The last 5000 elements of a list (what both capping branches of
`onMessage` compute). -/
def keepLast {α : Type} (xs : List α) : List α :=
  xs.drop (xs.length - 5000)

end Stream

/-! ## Helper lemmas -/

section Helpers

variable {V : Type}

theorem alookup_aset_self (l : List (String × V)) (k : String) (v : V) :
    alookup (aset l k v) k = some v := by
  simp [aset, alookup]

theorem alookup_aerase_self (l : List (String × V)) (k : String) :
    alookup (aerase l k) k = none := by
  induction l with
  | nil => rfl
  | cons kv rest ih =>
      obtain ⟨k1, v⟩ := kv
      by_cases h : k1 = k
      · simpa [aerase, h] using ih
      · simpa [aerase, alookup, h] using ih

end Helpers

section TransportHelpers

variable {P : Type}

/-- Complete characterisation of a burst of `send` calls on a
non-shutting-down transport: payloads are appended in order, the timer
ends armed iff it was armed or at least one send happened, and at most
one timer is armed (by the first send of the burst when none was armed). -/
theorem sendAll_spec (qs : List (P × Nat)) (s : Transport P)
    (h : s.shuttingDown = false) :
    sendAll s qs =
      { s with
        buffer := s.buffer ++ qs.map (fun pn => ⟨pn.1, pn.2⟩),
        timer := s.timer || !qs.isEmpty,
        timersArmed := s.timersArmed + (if s.timer || qs.isEmpty then 0 else 1) } := by
  induction qs generalizing s with
  | nil => simp; rfl
  | cons q rest ih =>
      show sendAll (send s q.1 q.2) rest = _
      cases ht : s.timer with
      | true =>
          rw [ih _ (by simp [send, h, ht])]
          simp [send, h, ht]
      | false =>
          rw [ih _ (by simp [send, h, ht])]
          simp [send, h, ht]

theorem flush_shuttingDown (s : Transport P) (ok : Bool) :
    (flush s ok).1.shuttingDown = s.shuttingDown := by
  unfold flush flushBegin flushFinish
  by_cases hf : s.isFlushing
  · simp [hf]
  · by_cases hb : s.buffer.isEmpty <;> simp [hf, hb]

theorem signalStep_shutdown (s : Transport P) (ok : Bool)
    (h : s.shuttingDown = true) : signalStep s ok = (s, none, false) := by
  simp [signalStep, h]

theorem signalAll_shutdown (s : Transport P) (oks : List Bool)
    (h : s.shuttingDown = true) : signalAll s oks = s := by
  induction oks with
  | nil => rfl
  | cons ok rest ih =>
      show signalAll (signalStep s ok).1 rest = s
      rw [signalStep_shutdown s ok h]
      exact ih

theorem isEmpty_false_of_ne_nil {α : Type} {l : List α} (h : l ≠ []) :
    l.isEmpty = false := by
  cases hl : l with
  | nil => exact absurd hl h
  | cons a l' => rfl

theorem flush_flushRuns (s : Transport P) (ok : Bool)
    (hf : s.isFlushing = false) :
    (flush s ok).1.flushRuns = s.flushRuns + 1 := by
  unfold flush flushBegin flushFinish
  by_cases hb : s.buffer.isEmpty <;> simp [hf, hb]

end TransportHelpers

section StreamHelpers

theorem cap_eq {α : Type} (xs : List α) :
    (if xs.length > 5000 then xs.drop (xs.length - 5000) else xs) = keepLast xs := by
  unfold keepLast
  split
  · rfl
  · next h =>
      have h0 : xs.length - 5000 = 0 := by omega
      simp [h0]

theorem keepLast_length_le {α : Type} (xs : List α) :
    (keepLast xs).length ≤ 5000 := by
  unfold keepLast
  simp only [List.length_drop]
  omega

theorem keepLast_eq_self {α : Type} (xs : List α) (h : xs.length ≤ 5000) :
    keepLast xs = xs := by
  unfold keepLast
  have h0 : xs.length - 5000 = 0 := by omega
  simp [h0]

theorem keepLast_append {α : Type} (xs ys : List α) :
    keepLast (keepLast xs ++ ys) = keepLast (xs ++ ys) := by
  unfold keepLast
  rw [List.drop_append_eq_append_drop, List.drop_append_eq_append_drop,
    List.drop_drop]
  simp only [List.length_append, List.length_drop]
  refine congrArg₂ (· ++ ·) ?_ ?_
  · exact congrArg (fun n => xs.drop n) (by omega)
  · exact congrArg (fun n => ys.drop n) (by omega)

theorem onMessage_not_initial (prev : List LogEntry) (p : Payload)
    (h : payloadType p ≠ some "initial") :
    onMessage prev p = keepLast (prev ++ incomingOf p) := by
  simp only [onMessage]
  rw [if_neg h]
  exact cap_eq _

theorem onMessage_single (prev : List LogEntry) (r : RawLog)
    (hk : truthyS r.keyId = true) (hr : r.type ≠ some "initial") :
    onMessage prev (singleMsg r) = keepLast (prev ++ [toLogEntry r]) := by
  rw [onMessage_not_initial prev (singleMsg r) (by simpa [singleMsg, payloadType] using hr)]
  simp [singleMsg, incomingOf, hk]

theorem feed_singles (rs : List RawLog) (prev : List LogEntry)
    (hp : prev.length ≤ 5000)
    (h : ∀ r ∈ rs, truthyS r.keyId = true ∧ r.type ≠ some "initial") :
    feed prev (rs.map singleMsg) = keepLast (prev ++ rs.map toLogEntry) := by
  induction rs generalizing prev with
  | nil =>
      simp [feed]
      exact (keepLast_eq_self prev hp).symm
  | cons r rest ih =>
      have hr := h r (by simp)
      show feed (onMessage prev (singleMsg r)) (rest.map singleMsg) = _
      rw [onMessage_single prev r hr.1 hr.2,
        ih _ (keepLast_length_le _) (fun x hx => h x (by simp [hx])),
        keepLast_append]
      simp

end StreamHelpers

/-! ## Claims -/

/-- **C1.** For every sequence of N ≥ 1 `send` calls within one flush
interval on a quiescent, non-shutting-down transport (no timer armed, no
flush running, empty buffer): the first `send` arms exactly one timer,
the later sends arm no additional timer, and the single flush triggered
when that timer fires executes exactly once (one guarded flush run, one
network request) with a batch containing exactly the N events in append
order, leaving the buffer empty and the timer cleared. -/
theorem claim_C1_batching {P : Type} (s : Transport P) (p : P × Nat)
    (rest : List (P × Nat)) (ok : Bool)
    (hsd : s.shuttingDown = false) (ht : s.timer = false)
    (hf : s.isFlushing = false) (hb : s.buffer = []) :
    (send s p.1 p.2).timersArmed = s.timersArmed + 1 ∧
    (send s p.1 p.2).timer = true ∧
    (sendAll (send s p.1 p.2) rest).timersArmed = s.timersArmed + 1 ∧
    (sendAll (send s p.1 p.2) rest).buffer
      = (p :: rest).map (fun pn => ⟨pn.1, pn.2⟩) ∧
    (flush (sendAll (send s p.1 p.2) rest) ok).2.1
      = some ((p :: rest).map (fun pn => ⟨pn.1, pn.2⟩)) ∧
    (flush (sendAll (send s p.1 p.2) rest) ok).1.flushRuns = s.flushRuns + 1 ∧
    (flush (sendAll (send s p.1 p.2) rest) ok).1.netRequests = s.netRequests + 1 ∧
    (flush (sendAll (send s p.1 p.2) rest) ok).1.buffer = [] ∧
    (flush (sendAll (send s p.1 p.2) rest) ok).1.timer = false := by
  have hsend : send s p.1 p.2
      = { s with buffer := [⟨p.1, p.2⟩], timer := true,
                 timersArmed := s.timersArmed + 1 } := by
    simp [send, hsd, ht, hb]
  have hall : sendAll (send s p.1 p.2) rest
      = { s with buffer := ⟨p.1, p.2⟩ :: rest.map (fun pn => ⟨pn.1, pn.2⟩),
                 timer := true, timersArmed := s.timersArmed + 1 } := by
    rw [hsend, sendAll_spec rest _ (by simp [hsd])]
    simp
  rw [hall, hsend]
  unfold flush flushBegin flushFinish
  simp [hf]

/-- Witness for C1 on a fresh transport with two sends. -/
theorem claim_C1_batching_witness :
    (Transport.init (P := Nat)).shuttingDown = false ∧
    (flush (sendAll (send (Transport.init (P := Nat)) 1 10) [(2, 20)]) true).2.1
      = some [⟨1, 10⟩, ⟨2, 20⟩] ∧
    (sendAll (send (Transport.init (P := Nat)) 1 10) [(2, 20)]).timersArmed = 1 :=
  ⟨rfl,
    (claim_C1_batching Transport.init (1, 10) [(2, 20)] true rfl rfl rfl rfl).2.2.2.2.1,
    (claim_C1_batching Transport.init (1, 10) [(2, 20)] true rfl rfl rfl rfl).2.2.1⟩

/-- **C2.** Any invocation of `flush` on a state whose in-progress guard is
set returns immediately with the state unchanged, no drain and no network
request; a flush starting from an idle state with a non-empty buffer
drains the whole buffer and issues exactly one network request, a
concurrent invocation during it is a complete no-op, and the guard is
cleared whether delivery succeeds or fails. -/
theorem claim_C2_flush_guard {P : Type} (s t : Transport P) (ok ok2 : Bool)
    (hgt : t.isFlushing = true)
    (hf : s.isFlushing = false) (hb : s.buffer ≠ []) :
    flush t ok2 = (t, none, false) ∧
    flushBegin s = ({ s with
                        isFlushing := true, timer := false, buffer := [],
                        flushRuns := s.flushRuns + 1,
                        netRequests := s.netRequests + 1 }, some s.buffer) ∧
    flush (flushBegin s).1 ok2 = ((flushBegin s).1, none, false) ∧
    (flushFinish (flushBegin s).1 true).1.isFlushing = false ∧
    (flushFinish (flushBegin s).1 false).1.isFlushing = false ∧
    (flushFinish (flushBegin s).1 ok).1.netRequests = s.netRequests + 1 := by
  have hbe : s.buffer.isEmpty = false := isEmpty_false_of_ne_nil hb
  have hbeg : flushBegin s
      = ({ s with
            isFlushing := true, timer := false, buffer := [],
            flushRuns := s.flushRuns + 1,
            netRequests := s.netRequests + 1 }, some s.buffer) := by
    unfold flushBegin
    simp [hf, hbe]
  refine ⟨?_, hbeg, ?_, ?_, ?_, ?_⟩
  · unfold flush flushBegin
    simp [hgt]
  · rw [hbeg]
    unfold flush flushBegin
    simp
  · rw [hbeg]; rfl
  · rw [hbeg]; rfl
  · rw [hbeg]; rfl

/-- Witness for C2 at concrete states. -/
theorem claim_C2_flush_guard_witness :
    (Transport.isFlushing (P := Nat) ⟨[], false, false, true, 0, 1, 1⟩ = true) ∧
    flush (P := Nat) ⟨[], false, false, true, 0, 1, 1⟩ false
      = (⟨[], false, false, true, 0, 1, 1⟩, none, false) ∧
    (flushBegin (P := Nat) ⟨[⟨7, 3⟩], true, false, false, 1, 0, 0⟩).2
      = some [⟨7, 3⟩] :=
  ⟨rfl,
    (claim_C2_flush_guard (P := Nat) ⟨[⟨7, 3⟩], true, false, false, 1, 0, 0⟩
      ⟨[], false, false, true, 0, 1, 1⟩ true false rfl rfl (by simp)).1,
    by
      rw [(claim_C2_flush_guard (P := Nat) ⟨[⟨7, 3⟩], true, false, false, 1, 0, 0⟩
        ⟨[], false, false, true, 0, 1, 1⟩ true false rfl rfl (by simp)).2.1]⟩

/-- **C3.** A flush that drained a non-empty batch never re-queues it:
whatever the delivery outcome, after the flush completes the buffer holds
exactly the events appended after the drain, the in-progress guard is
cleared, and the error channel is written iff delivery failed (the
failure is caught — the batch is sent but lost, nothing is thrown past
the flush boundary, which the model expresses by `flushFinish` being
total on both outcomes). -/
theorem claim_C3_flush_failure {P : Type} (s : Transport P)
    (qs : List (P × Nat)) (ok : Bool)
    (hsd : s.shuttingDown = false) (hf : s.isFlushing = false)
    (hb : s.buffer ≠ []) :
    (flushBegin s).2 = some s.buffer ∧
    (flushFinish (sendAll (flushBegin s).1 qs) ok).1.buffer
      = qs.map (fun pn => ⟨pn.1, pn.2⟩) ∧
    (flushFinish (sendAll (flushBegin s).1 qs) ok).1.isFlushing = false ∧
    ((flushFinish (sendAll (flushBegin s).1 qs) ok).2 = true ↔ ok = false) := by
  have hbe : s.buffer.isEmpty = false := isEmpty_false_of_ne_nil hb
  have hbeg : flushBegin s
      = ({ s with
            isFlushing := true, timer := false, buffer := [],
            flushRuns := s.flushRuns + 1,
            netRequests := s.netRequests + 1 }, some s.buffer) := by
    unfold flushBegin
    simp [hf, hbe]
  rw [hbeg]
  rw [sendAll_spec qs _ (by simp [hsd])]
  refine ⟨rfl, by simp [flushFinish], by simp [flushFinish], ?_⟩
  cases ok <;> simp [flushFinish]

/-- Witness for C3: failed delivery with one event appended mid-flight. -/
theorem claim_C3_flush_failure_witness :
    (Transport.buffer (P := Nat) ⟨[⟨7, 3⟩], true, false, false, 1, 0, 0⟩ ≠ []) ∧
    (flushFinish (sendAll
        (flushBegin (P := Nat) ⟨[⟨7, 3⟩], true, false, false, 1, 0, 0⟩).1
        [(8, 9)]) false).1.buffer = [⟨8, 9⟩] ∧
    ((flushFinish (sendAll
        (flushBegin (P := Nat) ⟨[⟨7, 3⟩], true, false, false, 1, 0, 0⟩).1
        [(8, 9)]) false).2 = true ↔ false = false) :=
  ⟨by simp,
    (claim_C3_flush_failure (P := Nat) ⟨[⟨7, 3⟩], true, false, false, 1, 0, 0⟩
      [(8, 9)] false rfl rfl (by simp)).2.1,
    (claim_C3_flush_failure (P := Nat) ⟨[⟨7, 3⟩], true, false, false, 1, 0, 0⟩
      [(8, 9)] false rfl rfl (by simp)).2.2.2⟩

/-- **C4.** On a transport that is not yet shutting down (and not
mid-flush), the first termination signal sets the shutting-down flag and
only then runs exactly one final flush (one guarded flush run); any
sequence of further signals leaves the state untouched, and every
`send` made after the flag is set is a no-op leaving the whole state —
in particular the buffer — unchanged. -/
theorem claim_C4_shutdown {P : Type} (s : Transport P) (ok : Bool)
    (oks : List Bool) (p : P) (t : Nat)
    (hsd : s.shuttingDown = false) (hf : s.isFlushing = false) :
    signalStep s ok
      = ((flush { s with shuttingDown := true } ok).1,
         (flush { s with shuttingDown := true } ok).2.1, true) ∧
    (signalStep s ok).1.shuttingDown = true ∧
    (signalStep s ok).1.flushRuns = s.flushRuns + 1 ∧
    signalAll (signalStep s ok).1 oks = (signalStep s ok).1 ∧
    send (signalStep s ok).1 p t = (signalStep s ok).1 := by
  have hstep : signalStep s ok
      = ((flush { s with shuttingDown := true } ok).1,
         (flush { s with shuttingDown := true } ok).2.1, true) := by
    unfold signalStep
    simp [hsd]
  have hflag : (signalStep s ok).1.shuttingDown = true := by
    rw [hstep]
    simp [flush_shuttingDown]
  refine ⟨hstep, hflag, ?_, signalAll_shutdown _ oks hflag, by simp [send, hflag]⟩
  rw [hstep]
  exact flush_flushRuns _ ok (by simp [hf])

/-- Witness for C4: one pending event, a failing final flush, two extra
signals, one post-shutdown send. -/
theorem claim_C4_shutdown_witness :
    (Transport.shuttingDown (P := Nat) ⟨[⟨1, 5⟩], true, false, false, 1, 0, 0⟩
      = false) ∧
    (signalStep (P := Nat) ⟨[⟨1, 5⟩], true, false, false, 1, 0, 0⟩
        false).1.shuttingDown = true ∧
    signalAll (signalStep (P := Nat) ⟨[⟨1, 5⟩], true, false, false, 1, 0, 0⟩
        false).1 [true, false]
      = (signalStep (P := Nat) ⟨[⟨1, 5⟩], true, false, false, 1, 0, 0⟩ false).1 ∧
    send (signalStep (P := Nat) ⟨[⟨1, 5⟩], true, false, false, 1, 0, 0⟩
        false).1 2 9
      = (signalStep (P := Nat) ⟨[⟨1, 5⟩], true, false, false, 1, 0, 0⟩ false).1 :=
  ⟨rfl,
    (claim_C4_shutdown (P := Nat) ⟨[⟨1, 5⟩], true, false, false, 1, 0, 0⟩
      false [true, false] 2 9 rfl rfl).2.1,
    (claim_C4_shutdown (P := Nat) ⟨[⟨1, 5⟩], true, false, false, 1, 0, 0⟩
      false [true, false] 2 9 rfl rfl).2.2.2.1,
    (claim_C4_shutdown (P := Nat) ⟨[⟨1, 5⟩], true, false, false, 1, 0, 0⟩
      false [true, false] 2 9 rfl rfl).2.2.2.2⟩

/-- **C10.** For every successfully resolved query response body `b`, the
data value exposed by `getLogs` equals: `b` itself when `b` is an array;
otherwise `b.logs` when that field is non-nullish; otherwise `b` itself
when `b` is non-nullish; otherwise the empty list — in particular a 2xx
object response without a `logs` field is stored as data unchanged, so
data can be a non-array object. -/
theorem claim_C10_rows_shape :
    (∀ b : JValue, dataOf b = specRowsOf b) ∧
    dataOf (.obj [("foo", .num 1)]) = .obj [("foo", .num 1)] ∧
    isArr (.obj [("foo", .num 1)]) = false := by
  refine ⟨?_, rfl, rfl⟩
  intro b
  cases b with
  | obj fs =>
      cases h : jfield fs "logs" with
      | none => simp [dataOf, specRowsOf, optChainLogs, isArr, jqq, nullish, h]
      | some v => cases v <;>
          simp [dataOf, specRowsOf, optChainLogs, isArr, jqq, nullish, h]
  | _ => simp [dataOf, specRowsOf, optChainLogs, isArr, jqq, nullish]

/-- **C5.** For a canonicalized filter key with no cached and no in-flight
entry: the first `fetchOnce` issues exactly one network call and awaits a
fresh promise; a second call before resolution changes nothing and awaits
the *same* promise (so both callers receive the same result); after a
successful resolution the value is cached and a further call serves the
cache without any network call; after a failed resolution nothing is
cached and the in-flight marker is cleared, so a further call performs a
new network call. -/
theorem claim_C5_fetch_dedup {V : Type} (s : FetchState V) (k : String)
    (v : V) (e : String)
    (hc : alookup s.cache k = none) (hi : alookup s.inflight k = none) :
    (fetchOnceStart s k).2 = .awaitP s.nextP ∧
    (fetchOnceStart s k).1.netCalls = s.netCalls + 1 ∧
    (fetchOnceStart (fetchOnceStart s k).1 k).2 = .awaitP s.nextP ∧
    (fetchOnceStart (fetchOnceStart s k).1 k).1 = (fetchOnceStart s k).1 ∧
    ((fetchOnceResolve (fetchOnceStart s k).1 k (.ok v)).2 = .ok v ∧
      (fetchOnceStart (fetchOnceResolve (fetchOnceStart s k).1 k (.ok v)).1 k).2
        = .cached v ∧
      (fetchOnceStart (fetchOnceResolve (fetchOnceStart s k).1 k (.ok v)).1 k).1.netCalls
        = s.netCalls + 1) ∧
    (alookup (fetchOnceResolve (fetchOnceStart s k).1 k (.error e)).1.cache k = none ∧
      alookup (fetchOnceResolve (fetchOnceStart s k).1 k (.error e)).1.inflight k = none ∧
      (fetchOnceStart (fetchOnceResolve (fetchOnceStart s k).1 k (.error e)).1 k).1.netCalls
        = s.netCalls + 2) := by
  simp [fetchOnceStart, fetchOnceResolve, hc, hi, alookup_aset_self,
    alookup_aerase_self]

/-- Witness for C5 at a concrete state. -/
theorem claim_C5_fetch_dedup_witness :
    alookup (FetchState.cache (V := Nat) ⟨[], [], 0, 0⟩) "type=error" = none ∧
    alookup (FetchState.inflight (V := Nat) ⟨[], [], 0, 0⟩) "type=error" = none ∧
    (fetchOnceStart (V := Nat) ⟨[], [], 0, 0⟩ "type=error").2 = .awaitP 0 :=
  ⟨rfl, rfl, (claim_C5_fetch_dedup ⟨[], [], 0, 0⟩ "type=error" 7 "boom" rfl rfl).1⟩

/-- **C6, counterexample.** In the reachable state where a request for the
key is still in flight (first fetch pending) and nothing is cached,
`refetch()` does *not* trigger a new network call: it reuses the pending
promise, so the result is not a fresh network round-trip, contradicting
the claim that `refetch()` always triggers a new network call. -/
theorem claim_C6_counterexample :
    (refetchStart (V := Nat)
        { cache := [], inflight := [("type=error", 0)], nextP := 1, netCalls := 1 }
        "type=error").1.netCalls = 1 ∧
    (refetchStart (V := Nat)
        { cache := [], inflight := [("type=error", 0)], nextP := 1, netCalls := 1 }
        "type=error").2 = .awaitP 0 := by
  decide

/-- **C6, amended.** For every filter key with no request currently in
flight for it, `refetch()` evicts the cache entry for that key and then
triggers a new network call, even when a resolved cached entry exists for
the same key; when a request for the key is in flight, `refetch()` instead
reuses that pending request and issues no additional network call. -/
theorem claim_C6_refetch {V : Type} (s : FetchState V) (k : String)
    (hi : alookup s.inflight k = none) :
    alookup (aerase s.cache k) k = none ∧
    (refetchStart s k).2 = .awaitP s.nextP ∧
    (refetchStart s k).1.netCalls = s.netCalls + 1 := by
  refine ⟨alookup_aerase_self _ _, ?_, ?_⟩ <;>
    simp [refetchStart, fetchOnceStart, alookup_aerase_self, hi]

/-- **C7.** The stream window never exceeds 5000 entries after processing
any message; for non-initial messages the window is the last 5000 entries
of the old window extended by the incoming batch (eviction drops from the
front, FIFO); and feeding n sequential valid incremental single-record
messages into an empty window keeps the last 5000 of them — for n = 5001
that is exactly records 2..5001 in arrival order, 5000 records. -/
theorem claim_C7_window_cap :
    (∀ (prev : List LogEntry) (p : Payload), (onMessage prev p).length ≤ 5000) ∧
    (∀ (prev : List LogEntry) (p : Payload), payloadType p ≠ some "initial" →
      onMessage prev p
        = (prev ++ incomingOf p).drop ((prev ++ incomingOf p).length - 5000)) ∧
    (∀ rs : List RawLog,
      (∀ r ∈ rs, truthyS r.keyId = true ∧ r.type ≠ some "initial") →
      feed [] (rs.map singleMsg) = (rs.map toLogEntry).drop (rs.length - 5000)) ∧
    (∀ rs : List RawLog, rs.length = 5001 →
      (∀ r ∈ rs, truthyS r.keyId = true ∧ r.type ≠ some "initial") →
      feed [] (rs.map singleMsg) = (rs.drop 1).map toLogEntry ∧
      (feed [] (rs.map singleMsg)).length = 5000) := by
  have hfeed : ∀ rs : List RawLog,
      (∀ r ∈ rs, truthyS r.keyId = true ∧ r.type ≠ some "initial") →
      feed [] (rs.map singleMsg) = (rs.map toLogEntry).drop (rs.length - 5000) := by
    intro rs h
    rw [feed_singles rs [] (by simp) h]
    unfold keepLast
    simp
  refine ⟨?_, ?_, hfeed, ?_⟩
  · intro prev p
    unfold onMessage
    split <;> rw [cap_eq] <;> exact keepLast_length_le _
  · intro prev p h
    rw [onMessage_not_initial prev p h]
    rfl
  · intro rs hlen h
    have h1 : feed [] (rs.map singleMsg) = (rs.drop 1).map toLogEntry := by
      rw [hfeed rs h, hlen]
      rw [show (5001 : Nat) - 5000 = 1 from rfl]
      exact (List.map_drop ..).symm ▸ rfl
    refine ⟨h1, ?_⟩
    rw [h1]
    simp [hlen]

/-- Witness for C7: two valid single-record messages into an empty window. -/
theorem claim_C7_window_cap_witness :
    (∀ r ∈ ([⟨some "error", "a", .inl 0, none, some "k"⟩,
             ⟨some "info", "b", .inl 1, none, some "k"⟩] : List RawLog),
      truthyS r.keyId = true ∧ r.type ≠ some "initial") ∧
    feed [] (([⟨some "error", "a", .inl 0, none, some "k"⟩,
               ⟨some "info", "b", .inl 1, none, some "k"⟩] : List RawLog).map singleMsg)
      = (([⟨some "error", "a", .inl 0, none, some "k"⟩,
           ⟨some "info", "b", .inl 1, none, some "k"⟩] : List RawLog).map toLogEntry).drop
          (([⟨some "error", "a", .inl 0, none, some "k"⟩,
             ⟨some "info", "b", .inl 1, none, some "k"⟩] : List RawLog).length - 5000) :=
  ⟨by decide, claim_C7_window_cap.2.2.1 _ (by decide)⟩

/-- **C8.** The stream message
`{type:"initial", logs:[{type:"ERROR", message:"m", timestamp:1700000000}]}`
yields a window of exactly one record with level `"error"` (raw type
lower-cased into the canonical set) and `ts` the ISO form of epoch second
1700000000; a record with a missing raw type, or one whose lower-cased raw
type is outside the canonical set, normalizes to level `"info"`. -/
theorem claim_C8_initial_normalization :
    onMessage []
        (.obj { logs := some [⟨some "ERROR", "m", .inl 1700000000, none, none⟩],
                asRec := ⟨some "initial", "", .inl 0, none, none⟩ })
      = [{ ts := "2023-11-14T22:13:20.000Z", level := "error",
           source := "default", message := "m",
           payload := ⟨some "ERROR", "m", .inl 1700000000, none, none⟩ }] ∧
    isoOfEpochMs (1700000000 * 1000) = "2023-11-14T22:13:20.000Z" ∧
    (∀ l : RawLog, l.type = none → (toLogEntry l).level = "info") ∧
    (∀ (l : RawLog) (t : String), l.type = some t →
      toLowerStr t ∉ ["warning", "success", "error", "debug", "audit", "metric"] →
      (toLogEntry l).level = "info") := by
  refine ⟨by decide, by decide, ?_, ?_⟩
  · intro l h
    simp [toLogEntry, orDefault, h]
    decide
  · intro l t h hmem
    simp only [List.mem_cons, List.not_mem_nil, or_false, not_or] at hmem
    obtain ⟨h1, h2, h3, h4, h5, h6⟩ := hmem
    by_cases ht : t = ""
    · subst ht
      simp [toLogEntry, orDefault, h]
      decide
    · simp [toLogEntry, orDefault, h, ht, h1, h2, h3, h4, h5, h6]

/-- Witness for C8: a missing raw type and an unrecognized raw type both
normalize to level `"info"`. -/
theorem claim_C8_initial_normalization_witness :
    (toLogEntry ⟨none, "x", .inl 0, none, none⟩).level = "info" ∧
    (toLogEntry ⟨some "HTTP", "x", .inl 0, none, none⟩).level = "info" :=
  ⟨claim_C8_initial_normalization.2.2.1 _ rfl,
    claim_C8_initial_normalization.2.2.2 _ "HTTP" rfl (by decide)⟩

/-- **C9, counterexample.** A single record object *without* a truthy
`keyId` is silently dropped by the incremental handler (the window stays
empty), while the very same record inside a bare array is accepted:
the three incremental shapes are not all accepted. -/
theorem claim_C9_counterexample :
    onMessage [] (singleMsg ⟨some "error", "m", .inl 0, none, none⟩) = [] ∧
    onMessage [] (.arr [⟨some "error", "m", .inl 0, none, none⟩])
      = [toLogEntry ⟨some "error", "m", .inl 0, none, none⟩] ∧
    onMessage [] (.arr [⟨some "error", "m", .inl 0, none, none⟩]) ≠ [] := by
  refine ⟨by decide, by decide, by decide⟩

/-- **C9, amended.** An envelope carrying a `logs` array (with non-initial
type) and a bare array are accepted and normalized identically for every
record list; a single record object is accepted — and then normalized
exactly like the same record in an array shape — only when its `keyId`
field is truthy; in all accepted shapes each raw record is mapped by the
same `toLogEntry` normalization and appended to the window. -/
theorem claim_C9_shapes (prev : List LogEntry) (ls : List RawLog)
    (o : MsgObj) (r : RawLog)
    (ho : o.logs = some ls) (hno : o.asRec.type ≠ some "initial")
    (hk : truthyS r.keyId = true) (hr : r.type ≠ some "initial") :
    onMessage prev (.obj o) = onMessage prev (.arr ls) ∧
    onMessage prev (singleMsg r) = onMessage prev (.arr [r]) ∧
    incomingOf (.obj o) = ls.map toLogEntry ∧
    incomingOf (.arr ls) = ls.map toLogEntry ∧
    incomingOf (singleMsg r) = [toLogEntry r] := by
  have hio : incomingOf (.obj o) = ls.map toLogEntry := by
    simp [incomingOf, ho]
  have his : incomingOf (singleMsg r) = [toLogEntry r] := by
    simp [singleMsg, incomingOf, hk]
  refine ⟨?_, ?_, hio, rfl, his⟩
  · rw [onMessage_not_initial prev (.obj o) (by simpa [payloadType] using hno),
      onMessage_not_initial prev (.arr ls) (by simp [payloadType]), hio]
    rfl
  · rw [onMessage_not_initial prev (singleMsg r)
        (by simpa [singleMsg, payloadType] using hr),
      onMessage_not_initial prev (.arr [r]) (by simp [payloadType]), his]
    rfl

/-- Witness for C9 (amended) at concrete messages. -/
theorem claim_C9_shapes_witness :
    onMessage [] (.obj { logs := some [⟨some "error", "m", .inl 0, none, none⟩],
                         asRec := ⟨some "batch", "", .inl 0, none, none⟩ })
      = onMessage [] (.arr [⟨some "error", "m", .inl 0, none, none⟩]) ∧
    onMessage [] (singleMsg ⟨some "error", "m", .inl 0, none, some "key-1"⟩)
      = onMessage [] (.arr [⟨some "error", "m", .inl 0, none, some "key-1"⟩]) :=
  ⟨(claim_C9_shapes [] [⟨some "error", "m", .inl 0, none, none⟩]
      { logs := some [⟨some "error", "m", .inl 0, none, none⟩],
        asRec := ⟨some "batch", "", .inl 0, none, none⟩ }
      ⟨some "error", "m", .inl 0, none, some "key-1"⟩
      rfl (by decide) rfl (by decide)).1,
    (claim_C9_shapes [] [⟨some "error", "m", .inl 0, none, none⟩]
      { logs := some [⟨some "error", "m", .inl 0, none, none⟩],
        asRec := ⟨some "batch", "", .inl 0, none, none⟩ }
      ⟨some "error", "m", .inl 0, none, some "key-1"⟩
      rfl (by decide) rfl (by decide)).2.1⟩

/-- Witness for C6 (amended) at a concrete state with a resolved cached
entry for the key. -/
theorem claim_C6_refetch_witness :
    alookup (FetchState.inflight (V := Nat) ⟨[("k", 5)], [], 3, 2⟩) "k" = none ∧
    (refetchStart (V := Nat) ⟨[("k", 5)], [], 3, 2⟩ "k").2 = .awaitP 3 ∧
    (refetchStart (V := Nat) ⟨[("k", 5)], [], 3, 2⟩ "k").1.netCalls = 3 :=
  ⟨rfl, (claim_C6_refetch ⟨[("k", 5)], [], 3, 2⟩ "k" rfl).2.1,
    (claim_C6_refetch ⟨[("k", 5)], [], 3, 2⟩ "k" rfl).2.2⟩

end OML
